import Mathlib

/-!
Verification of the `brickorm` fetch–normalize–load engine
(`src/brickorm/models.py` and `src/brickorm/bootstrap.py`).

The Python source declares twelve SQLModel entity classes, each with a
class-level source URL, typed fields (with nullability, primary keys and
foreign keys), and a shared class method `download_instances` that performs
an HTTP GET, decompresses the gzip body, parses it as CSV, normalizes every
NaN cell to `None`, and validates each row through pydantic
(`cls.model_validate`).  `bootstrap` creates the schema with
`SQLModel.metadata.create_all` and then, for each model in the fixed tuple
`ALL_MODELS`, downloads all instances, adds them to one session and commits
once per model.

This file is a shallow embedding of that pipeline: rows, values, field
schemas, the pydantic validation step (including the `Element.convert_id`
before-validator and the `PartRelationship.PartType` string enumeration),
the per-entity download step, and the bootstrap loop over an explicit
database state with per-table rows and SQLite-style primary-key uniqueness
checked at commit time.
-/

namespace BrickOrm

/-- The twelve entity classes of `models.py`. -/
inductive Entity
  | PartCategory
  | Part
  | Color
  | Element
  | PartRelationship
  | Minifig
  | Set
  | Theme
  | Inventory
  | InventoryPart
  | InventoryMinifig
  | InventorySet
deriving DecidableEq, Fintype

/-- The fixed load order `ALL_MODELS` from the bottom of `models.py`. -/
def ALL_MODELS : List Entity :=
  [.PartCategory, .Theme, .Part, .Color, .Set, .Element, .Minifig,
   .Inventory, .InventoryPart, .InventoryMinifig, .InventorySet,
   .PartRelationship]

/-- The `PartRelationship.PartType` string enumeration (`StrEnum`). -/
inductive PartType
  | PRINT
  | SUB_PART
  | MOLD
  | ALTERNATE
  | PAIR
  | PATTERN
deriving DecidableEq, Fintype

/-- The one-letter code of each `PartType` member (its `StrEnum` value). -/
def PartType.code : PartType → String
  | .PRINT => "P"
  | .SUB_PART => "B"
  | .MOLD => "M"
  | .ALTERNATE => "A"
  | .PAIR => "R"
  | .PATTERN => "T"

/-- A Python-level field value after the NaN-to-None normalization in
`download_instances`: an int, a string, a bool, a `PartType` enum member,
or `None`. -/
inductive Value
  | vInt (n : Int)
  | vStr (s : String)
  | vBool (b : Bool)
  | vEnum (t : PartType)
  | vNull
deriving DecidableEq

/-- A raw CSV cell as produced by `pd.read_csv`: a typed scalar or the
NaN marker for an empty cell. -/
inductive Raw
  | rInt (n : Int)
  | rStr (s : String)
  | rBool (b : Bool)
  | rNaN
deriving DecidableEq

/-- A parsed CSV data row: column name to raw cell, in column order. -/
abbrev RawRow := List (String × Raw)

/-- A Python dict passed to `model_validate`. -/
abbrev Dict := List (String × Value)

/-- A validated record (field name to validated value, in schema order). -/
abbrev Record := List (String × Value)

/-- First-match lookup in an association list keyed by strings (Python
dict access). -/
def dlookup {α : Type} (k : String) : List (String × α) → Option α
  | [] => none
  | (k', v) :: rest => if k' = k then some v else dlookup k rest

/-- Python dict assignment `d[k] = v`: replace the first binding of `k`,
or append it if absent. -/
def dictSet (k : String) (v : Value) : Dict → Dict
  | [] => [(k, v)]
  | (k', v') :: rest =>
      if k' = k then (k, v) :: rest else (k', v') :: dictSet k v rest

/-- The NaN-to-None step of `download_instances`:
`d = {k: (v if not pd.isna(v) else None) for k, v in row.to_dict().items()}`. -/
def rawToValue : Raw → Value
  | .rInt n => .vInt n
  | .rStr s => .vStr s
  | .rBool b => .vBool b
  | .rNaN => .vNull

/-- Build the dict handed to `model_validate` from a raw CSV row. -/
def rowToDict : RawRow → Dict
  | [] => []
  | (k, r) :: rest => (k, rawToValue r) :: rowToDict rest

/-- Python's `str()` applied to a field value, as used by
`Element.convert_id` (`str(None) = "None"`). -/
def pyStr : Value → String
  | .vInt n => toString n
  | .vStr s => s
  | .vBool b => if b then "True" else "False"
  | .vEnum t => t.code
  | .vNull => "None"

/-- The declared type of a field: `int`, `str` with a `max_length`,
`bool`, or the `PartType` enumeration. -/
inductive FieldType
  | tInt
  | tStr (maxLen : Nat)
  | tBool
  | tRelType
deriving DecidableEq

/-- One field declaration of an entity: name, type, nullability
(`Optional[...]` in the source), and the declared default if any
(`Field(default=None, ...)` on the integer primary keys). -/
structure FieldSpec where
  name : String
  type : FieldType
  nullable : Bool
  dflt : Option Value
deriving DecidableEq

/-- The column fields of each entity class, in declaration order.
Relationship attributes are ORM navigation properties, not columns, and
take no part in CSV validation. -/
def fields : Entity → List FieldSpec
  | .PartCategory =>
      [⟨"id", .tInt, false, some .vNull⟩,
       ⟨"name", .tStr 200, false, none⟩]
  | .Part =>
      [⟨"part_num", .tStr 20, false, none⟩,
       ⟨"name", .tStr 250, false, none⟩,
       ⟨"part_cat_id", .tInt, false, none⟩]
  | .Color =>
      [⟨"id", .tInt, false, some .vNull⟩,
       ⟨"name", .tStr 200, false, none⟩,
       ⟨"rgb", .tStr 6, false, none⟩,
       ⟨"is_trans", .tBool, false, none⟩]
  | .Element =>
      [⟨"element_id", .tStr 10, false, none⟩,
       ⟨"part_num", .tStr 20, false, none⟩,
       ⟨"color_id", .tInt, false, none⟩]
  | .PartRelationship =>
      [⟨"rel_type", .tRelType, false, none⟩,
       ⟨"child_part_num", .tStr 20, false, none⟩,
       ⟨"parent_part_num", .tStr 20, false, none⟩]
  | .Minifig =>
      [⟨"fig_num", .tStr 20, false, none⟩,
       ⟨"name", .tStr 256, false, none⟩,
       ⟨"num_parts", .tInt, false, none⟩]
  | .Set =>
      [⟨"set_num", .tStr 20, false, none⟩,
       ⟨"name", .tStr 256, false, none⟩,
       ⟨"year", .tInt, false, none⟩,
       ⟨"theme_id", .tInt, false, none⟩,
       ⟨"num_parts", .tInt, false, none⟩]
  | .Theme =>
      [⟨"id", .tInt, false, some .vNull⟩,
       ⟨"name", .tStr 256, false, none⟩,
       ⟨"parent_id", .tInt, true, none⟩]
  | .Inventory =>
      [⟨"id", .tInt, false, some .vNull⟩,
       ⟨"version", .tInt, false, none⟩,
       ⟨"set_num", .tStr 20, false, none⟩]
  | .InventoryPart =>
      [⟨"id", .tInt, false, some .vNull⟩,
       ⟨"inventory_id", .tInt, false, none⟩,
       ⟨"part_num", .tStr 20, false, none⟩,
       ⟨"color_id", .tInt, false, none⟩,
       ⟨"quantity", .tInt, false, none⟩,
       ⟨"is_spare", .tBool, false, none⟩]
  | .InventoryMinifig =>
      [⟨"id", .tInt, false, some .vNull⟩,
       ⟨"inventory_id", .tInt, false, none⟩,
       ⟨"fig_num", .tStr 20, false, none⟩,
       ⟨"quantity", .tInt, false, none⟩]
  | .InventorySet =>
      [⟨"inventory_id", .tInt, false, none⟩,
       ⟨"set_num", .tStr 20, false, none⟩,
       ⟨"quantity", .tInt, false, none⟩]

/-- The names of an entity's fields declared non-nullable. -/
def nonNullableFields (e : Entity) : List String :=
  ((fields e).filter (fun fs => !fs.nullable)).map (fun fs => fs.name)

/-- The primary-key columns of each entity (single or composite), from the
`primary_key=True` markers and the `PrimaryKeyConstraint` on
`PartRelationship`. -/
def pk : Entity → List String
  | .PartCategory => ["id"]
  | .Part => ["part_num"]
  | .Color => ["id"]
  | .Element => ["element_id"]
  | .PartRelationship => ["rel_type", "child_part_num", "parent_part_num"]
  | .Minifig => ["fig_num"]
  | .Set => ["set_num"]
  | .Theme => ["id"]
  | .Inventory => ["id"]
  | .InventoryPart => ["id"]
  | .InventoryMinifig => ["id"]
  | .InventorySet => ["inventory_id", "set_num"]

/-- The parent entities named by an entity's `foreign_key=` declarations,
one element per declared foreign-key column. -/
def fkParents : Entity → List Entity
  | .PartCategory => []
  | .Part => [.PartCategory]
  | .Color => []
  | .Element => [.Part, .Color]
  | .PartRelationship => [.Part, .Part]
  | .Minifig => []
  | .Set => [.Theme]
  | .Theme => [.Theme]
  | .Inventory => [.Set]
  | .InventoryPart => [.Inventory, .Part, .Color]
  | .InventoryMinifig => [.Inventory, .Minifig]
  | .InventorySet => [.Inventory, .Set]

/-- The class name of an entity (Python `cls.__name__`), used in error
reports. -/
def entityName : Entity → String
  | .PartCategory => "PartCategory"
  | .Part => "Part"
  | .Color => "Color"
  | .Element => "Element"
  | .PartRelationship => "PartRelationship"
  | .Minifig => "Minifig"
  | .Set => "Set"
  | .Theme => "Theme"
  | .Inventory => "Inventory"
  | .InventoryPart => "InventoryPart"
  | .InventoryMinifig => "InventoryMinifig"
  | .InventorySet => "InventorySet"

/-- Decode a `rel_type` code into its `PartType` member, as pydantic does
when validating a value against the `StrEnum`. -/
def parseRelType (s : String) : Option PartType :=
  if s = "P" then some .PRINT
  else if s = "B" then some .SUB_PART
  else if s = "M" then some .MOLD
  else if s = "A" then some .ALTERNATE
  else if s = "R" then some .PAIR
  else if s = "T" then some .PATTERN
  else none

/-- Pydantic coercion of one value against a declared field type and
nullability.  `none` means the value is rejected (a `ValidationError` on
that field).  A null value is accepted only for `Optional` fields; strings
are checked against `max_length`; integers are not coerced to strings
(pydantic v2 rejects `int` for a `str` field, which is why
`Element.convert_id` exists); numeric strings are accepted for `int`
fields; `rel_type` values must be one of the `PartType` codes. -/
def coerceField : FieldType → Bool → Value → Option Value
  | _, nb, .vNull => if nb then some .vNull else none
  | .tInt, _, .vInt n => some (.vInt n)
  | .tInt, _, .vStr s => (s.toInt?).map Value.vInt
  | .tStr m, _, .vStr s => if s.length ≤ m then some (.vStr s) else none
  | .tBool, _, .vBool b => some (.vBool b)
  | .tRelType, _, .vStr s => (parseRelType s).map Value.vEnum
  | .tRelType, _, .vEnum t => some (.vEnum t)
  | _, _, _ => none

/-- Fetch and validate one field of the dict.  A missing key falls back to
the declared default (unvalidated, as pydantic does not validate defaults)
or is an error; a present value goes through `coerceField`.  The error
payload is the offending field's name. -/
def getFieldValue (d : Dict) (fs : FieldSpec) : Except String Value :=
  match dlookup fs.name d with
  | none =>
      match fs.dflt with
      | some dv => .ok dv
      | none => .error fs.name
  | some v =>
      match coerceField fs.type fs.nullable v with
      | some v' => .ok v'
      | none => .error fs.name

/-- Validate every field of the schema against the dict, producing the
record in schema order or the first offending field's name. -/
def validateFields (d : Dict) : List FieldSpec → Except String Record
  | [] => .ok []
  | fs :: rest =>
      match getFieldValue d fs with
      | .error f => .error f
      | .ok v =>
          match validateFields d rest with
          | .error f => .error f
          | .ok r => .ok ((fs.name, v) :: r)

/-- The `mode="before"` model validators.  Only `Element` declares one:
`convert_id` sets `values["element_id"] = str(values["element_id"])`,
which raises (a `KeyError`, surfaced through pydantic) when the key is
absent and otherwise stringifies the value — including `None`, which
becomes the string `"None"`. -/
def beforeValidator (e : Entity) (d : Dict) : Except String Dict :=
  match e with
  | .Element =>
      match dlookup "element_id" d with
      | none => .error "element_id"
      | some v => .ok (dictSet "element_id" (.vStr (pyStr v)) d)
  | _ => .ok d

/-- `cls.model_validate(d)`: run the before-validator, then validate every
declared field. -/
def model_validate (e : Entity) (d : Dict) : Except String Record :=
  match beforeValidator e d with
  | .error f => .error f
  | .ok d' => validateFields d' (fields e)

/-- The error taxonomy of the pipeline, named after the spec's
classification of the failure sites in `download_instances`: the
not-`r.ok` raise, a malformed gzip body, and a row that
`model_validate` rejects (with the entity, the row's position, and the
offending field). -/
inductive Err
  | retrievalError
  | decodeError
  | validationError (entity : String) (row : Nat) (field : String)
deriving DecidableEq

/-- Validate the parsed rows in order, starting at row index `i`.
The loop in `download_instances` appends one validated model per row and
aborts on the first row that `model_validate` rejects, so no record list
is produced at all in that case. -/
def validateRows (e : Entity) (i : Nat) : List RawRow → Except Err (List Record)
  | [] => .ok []
  | row :: rest =>
      match model_validate e (rowToDict row) with
      | .error f => .error (.validationError (entityName e) i f)
      | .ok rec =>
          match validateRows e (i + 1) rest with
          | .error err => .error err
          | .ok recs => .ok (rec :: recs)

/-- The body of an HTTP response: either a well-formed gzip-compressed CSV
that decodes to a list of data rows, or a corrupt payload. -/
inductive Payload
  | gzipCsv (rows : List RawRow)
  | corrupt

/-- The final HTTP response for an entity's URL, after
`requests.get(..., allow_redirects=True)` has followed redirects:
`ok` is `r.ok` (the status code is 2xx or 3xx, i.e. below 400). -/
structure HttpResponse where
  ok : Bool
  content : Payload

/-- `RebrickableModel.download_instances`, given the HTTP response for the
entity's URL: abort on a non-ok response (the source's bare `raise`),
abort on a corrupt gzip body, and otherwise validate every CSV row in
order, materializing the full record list before returning. -/
def download_instances (e : Entity) (r : HttpResponse) : Except Err (List Record) :=
  if r.ok then
    match r.content with
    | .corrupt => .error .decodeError
    | .gzipCsv rows => validateRows e 0 rows
  else .error .retrievalError

/-- The primary-key value of a record: the tuple of its values at the
entity's primary-key columns. -/
def pkValues (e : Entity) (r : Record) : List (Option Value) :=
  (pk e).map (fun k => dlookup k r)

/-- SQLite membership test on primary-key tuples. -/
def pkvMem (p : List (Option Value)) : List (List (Option Value)) → Bool
  | [] => false
  | q :: rest => if p = q then true else pkvMem p rest

/-- SQLite's per-insert uniqueness check over a batch: each new
primary-key tuple must differ from every row already in the table and from
every row inserted earlier in the same batch, else the flush at commit
raises an `IntegrityError`. -/
def pkFresh : List (List (Option Value)) → List (List (Option Value)) → Bool
  | [], _ => true
  | p :: rest, seen => if pkvMem p seen then false else pkFresh rest (p :: seen)

/-- The destination SQLite database: which tables exist, and the committed
rows of each table. -/
structure DB where
  tables : List Entity
  rows : Entity → List Record

/-- A fresh destination file: no tables, no rows. -/
def emptyDB : DB := ⟨[], fun _ => []⟩

/-- `SQLModel.metadata.create_all(engine)`: create every missing table
(empty) and leave every existing table — and its rows — untouched.  It
never drops or truncates anything. -/
def create_all (db : DB) : DB :=
  { tables := ALL_MODELS,
    rows := fun e => if e ∈ db.tables then db.rows e else [] }

/-- `session.commit()` for one entity's batch of added instances: flush
the inserts, checking primary-key uniqueness against the table and the
batch itself; on an `IntegrityError` the transaction is rolled back
(`none`), otherwise the rows are appended durably. -/
def commitEntity (db : DB) (e : Entity) (recs : List Record) : Option DB :=
  if pkFresh (recs.map (pkValues e)) ((db.rows e).map (pkValues e)) then
    some { db with
           rows := fun x => if x = e then db.rows e ++ recs else db.rows x }
  else none

/-- Observable steps of a run, for stating the loader's ordering
discipline: the single schema-creation call, and per entity the fetch
(the `download_instances` call), the session-add phase, and the commit. -/
inductive Event
  | createSchema
  | fetchEv (e : Entity)
  | insertEv (e : Entity)
  | commitEv (e : Entity)
deriving DecidableEq

/-- The per-model loop of `bootstrap`: for each model in order, download
all instances (abort the run if that raises, leaving the database as it
was), add them to the session and commit (abort on an `IntegrityError`,
whose rollback discards the uncommitted batch).  Also returns which
entity, if any, the run failed on, and the event trace. -/
def loadLoop (fetch : Entity → HttpResponse) :
    List Entity → DB → DB × Option Entity × List Event
  | [], db => (db, none, [])
  | e :: rest, db =>
      match download_instances e (fetch e) with
      | .error _ => (db, some e, [.fetchEv e])
      | .ok recs =>
          match commitEntity db e recs with
          | none => (db, some e, [.fetchEv e, .insertEv e])
          | some db' =>
              let r := loadLoop fetch rest db'
              (r.1, r.2.1, .fetchEv e :: .insertEv e :: .commitEv e :: r.2.2)

/-- `bootstrap(path)`: create the schema for all models, then run the
per-model download–add–commit loop over `ALL_MODELS`. -/
def bootstrap (fetch : Entity → HttpResponse) (db : DB) :
    DB × Option Entity × List Event :=
  let db₁ := create_all db
  let r := loadLoop fetch ALL_MODELS db₁
  (r.1, r.2.1, .createSchema :: r.2.2)

/-- The trace block of one successfully committed entity. -/
def okBlock (e : Entity) : List Event := [.fetchEv e, .insertEv e, .commitEv e]

/-! ## Helper lemmas -/

/-- Looking a key up in the dict built from a raw row is looking it up in
the row and normalizing. -/
lemma dlookup_rowToDict (k : String) (r : RawRow) :
    dlookup k (rowToDict r) = (dlookup k r).map rawToValue := by
  induction r with
  | nil => rfl
  | cons kv rest ih =>
      obtain ⟨k', rv⟩ := kv
      by_cases h : k' = k <;> simp [rowToDict, dlookup, h, ih]

/-- After `d[k] = v`, looking up `k` yields `v`. -/
lemma dlookup_dictSet_self (k : String) (v : Value) (d : Dict) :
    dlookup k (dictSet k v d) = some v := by
  induction d with
  | nil => simp [dictSet, dlookup]
  | cons kv rest ih =>
      obtain ⟨k', v'⟩ := kv
      by_cases h : k' = k <;> simp [dictSet, dlookup, h, ih]

/-- After `d[k] = v`, looking up any other key is unchanged. -/
lemma dlookup_dictSet_ne (k k' : String) (v : Value) (d : Dict)
    (hk : k' ≠ k) : dlookup k' (dictSet k v d) = dlookup k' d := by
  have hk' : k ≠ k' := Ne.symm hk
  induction d with
  | nil => simp [dictSet, dlookup, hk']
  | cons kv rest ih =>
      obtain ⟨k₀, v₀⟩ := kv
      by_cases h : k₀ = k
      · subst h
        simp [dictSet, dlookup, hk']
      · by_cases h' : k₀ = k' <;> simp [dictSet, dlookup, h, h', hk, ih]

/-- A null value is rejected for every non-nullable field type. -/
lemma coerceField_null (t : FieldType) : coerceField t false .vNull = none := by
  cases t <;> rfl

/-- A name in `nonNullableFields e` comes from a declared field of `e`
that is non-nullable. -/
lemma mem_nonNullableFields {e : Entity} {f : String}
    (h : f ∈ nonNullableFields e) :
    ∃ fs ∈ fields e, fs.name = f ∧ fs.nullable = false := by
  rw [nonNullableFields] at h
  obtain ⟨fs, hmem, hname⟩ := List.mem_map.mp h
  obtain ⟨hfs, hnn⟩ := List.mem_filter.mp hmem
  exact ⟨fs, hfs, hname, by simpa using hnn⟩

/-- If some declared non-nullable field of the schema list has a null
value in the dict, field validation fails. -/
lemma validateFields_error_of_null {d : Dict} {fs : FieldSpec}
    (hnn : fs.nullable = false) (hl : dlookup fs.name d = some .vNull) :
    ∀ {fl : List FieldSpec}, fs ∈ fl →
      ∃ f', validateFields d fl = .error f' := by
  intro fl
  induction fl with
  | nil => intro h; cases h
  | cons g rest ih =>
      intro hmem
      cases hgv : getFieldValue d g with
      | error f => exact ⟨f, by simp [validateFields, hgv]⟩
      | ok v =>
          have hne : fs ≠ g := by
            intro h
            subst h
            rw [getFieldValue, hl, hnn] at hgv
            simp [coerceField_null] at hgv
          have hfs : fs ∈ rest := by
            rcases List.mem_cons.mp hmem with h | h
            · exact absurd h hne
            · exact h
          obtain ⟨f', hrec⟩ := ih hfs
          exact ⟨f', by simp [validateFields, hgv, hrec]⟩

/-- Only `Element` has a before-validator; all other entities pass the
dict through unchanged. -/
lemma beforeValidator_ne_element {e : Entity} (he : e ≠ .Element)
    (d : Dict) : beforeValidator e d = .ok d := by
  cases e <;> first | rfl | exact absurd rfl he

/-- Decompose a successful validation of a non-empty schema list into the
head field's value and the validated tail. -/
lemma validateFields_ok_cons {d : Dict} {fs : FieldSpec}
    {rest : List FieldSpec} {rec : Record}
    (h : validateFields d (fs :: rest) = .ok rec) :
    ∃ v r, getFieldValue d fs = .ok v ∧ validateFields d rest = .ok r ∧
      rec = (fs.name, v) :: r := by
  rw [validateFields] at h
  cases h1 : getFieldValue d fs with
  | error f => rw [h1] at h; cases h
  | ok v =>
      rw [h1] at h
      cases h2 : validateFields d rest with
      | error f => rw [h2] at h; cases h
      | ok r => rw [h2] at h; cases h; exact ⟨v, r, rfl, rfl, rfl⟩

/-! ## C1: the fixed load order is a topological order of the declared
foreign-key graph -/

/-- C1.  Every entity occurs in `ALL_MODELS`, and for every entity `e`
and every parent `p` named by one of `e`'s foreign keys (self-references
excluded), `p` occurs strictly earlier in `ALL_MODELS` than `e`: the
fixed sequence PartCategory, Theme, Part, Color, Set, Element, Minifig,
Inventory, InventoryPart, InventoryMinifig, InventorySet,
PartRelationship used by the loader is a topological order of the
declared foreign-key graph, parents before children. -/
theorem claim1 :
    (∀ e : Entity, e ∈ ALL_MODELS) ∧
    (∀ e ∈ ALL_MODELS, ∀ p ∈ fkParents e, p ≠ e →
      ALL_MODELS.indexOf p < ALL_MODELS.indexOf e) := by
  decide

/-- Witness for C1 at a concrete edge: `Part` references `PartCategory`,
which precedes it in the load order. -/
theorem claim1_witness :
    ALL_MODELS.indexOf Entity.PartCategory < ALL_MODELS.indexOf Entity.Part :=
  claim1.2 Entity.Part (by decide) Entity.PartCategory (by decide) (by decide)

/-! ## C2: null markers in non-nullable fields -/

/-- Counterexample to C2 as stated.  `element_id` is a non-nullable field
of `Element`, yet normalizing a row whose `element_id` cell is the NaN
marker does not raise: the `convert_id` before-validator stringifies the
normalized `None` into the text `"None"`, and validation succeeds with
that substituted value. -/
theorem claim2_counterexample :
    "element_id" ∈ nonNullableFields Entity.Element ∧
    dlookup "element_id"
      [("element_id", Raw.rNaN), ("part_num", Raw.rStr "3001"),
       ("color_id", Raw.rInt 1)] = some Raw.rNaN ∧
    model_validate Entity.Element
      (rowToDict
        [("element_id", Raw.rNaN), ("part_num", Raw.rStr "3001"),
         ("color_id", Raw.rInt 1)])
      = Except.ok
          [("element_id", Value.vStr "None"), ("part_num", Value.vStr "3001"),
           ("color_id", Value.vInt 1)] :=
  ⟨by decide, rfl, rfl⟩

/-- C2 as amended.  For every entity `E` and every non-nullable field `F`
of `E` other than `Element.element_id`, normalizing a row whose source
value for `F` is the empty/NaN marker fails with a validation error; the
normalizer never silently produces a null there.  The single exception is
`Element.element_id`, whose before-validator replaces the null by the
string `"None"` (see the counterexample). -/
theorem claim2 (e : Entity) (f : String) (row : RawRow)
    (hf : f ∈ nonNullableFields e)
    (hne : ¬(e = .Element ∧ f = "element_id"))
    (hl : dlookup f row = some .rNaN) :
    ∃ f', model_validate e (rowToDict row) = .error f' := by
  have hv : dlookup f (rowToDict row) = some .vNull := by
    rw [dlookup_rowToDict, hl]; rfl
  obtain ⟨fs, hmem, hname, hnn⟩ := mem_nonNullableFields hf
  by_cases he : e = .Element
  · subst he
    have hfel : f ≠ "element_id" := fun h => hne ⟨rfl, h⟩
    rw [model_validate, beforeValidator]
    cases hid : dlookup "element_id" (rowToDict row) with
    | none => exact ⟨"element_id", rfl⟩
    | some v =>
        have hv' : dlookup fs.name
            (dictSet "element_id" (.vStr (pyStr v)) (rowToDict row))
            = some .vNull := by
          rw [dlookup_dictSet_ne _ _ _ _ (hname ▸ hfel), hname, hv]
        exact validateFields_error_of_null hnn hv' hmem
  · rw [model_validate, beforeValidator_ne_element he]
    exact validateFields_error_of_null hnn (hname ▸ hv) hmem

/-- Witness for the amended C2: a `Part` row whose non-nullable
`part_cat_id` cell is the NaN marker fails validation. -/
theorem claim2_witness :
    ∃ f', model_validate Entity.Part
      (rowToDict
        [("part_num", Raw.rStr "3001"), ("name", Raw.rStr "Brick 2 x 4"),
         ("part_cat_id", Raw.rNaN)]) = .error f' :=
  claim2 Entity.Part "part_cat_id"
    [("part_num", Raw.rStr "3001"), ("name", Raw.rStr "Brick 2 x 4"),
     ("part_cat_id", Raw.rNaN)]
    (by decide) (by decide) rfl

/-! ## C3: non-2xx responses -/

/-- C3.  If the HTTP response for an entity's source URL, after following
redirects, is not successful (`r.ok` false), `download_instances` fails
with the retrieval error and produces no records for that entity. -/
theorem claim3 (e : Entity) (r : HttpResponse) (h : r.ok = false) :
    download_instances e r = .error .retrievalError := by
  simp [download_instances, h]

/-- Witness for C3: a concrete failed response for `Part`. -/
theorem claim3_witness :
    download_instances Entity.Part ⟨false, .corrupt⟩
      = .error .retrievalError :=
  claim3 Entity.Part ⟨false, .corrupt⟩ rfl

/-! ## C7: the closed `rel_type` code set -/

/-- C7.  Normalizing a `PartRelationship` row whose `rel_type` value lies
outside the closed code set P, B, M, A, R, T fails with a validation
error on `rel_type` (no unrecognized code is silently accepted), and
every recognized code is accepted and mapped to its corresponding
`PartType` enumeration member. -/
theorem claim7 (s c p : String) (hc : c.length ≤ 20) (hp : p.length ≤ 20) :
    (s ∉ ["P", "B", "M", "A", "R", "T"] →
      model_validate .PartRelationship
        (rowToDict
          [("rel_type", .rStr s), ("child_part_num", .rStr c),
           ("parent_part_num", .rStr p)]) = .error "rel_type") ∧
    (∀ t : PartType, s = t.code →
      model_validate .PartRelationship
        (rowToDict
          [("rel_type", .rStr s), ("child_part_num", .rStr c),
           ("parent_part_num", .rStr p)])
        = .ok
            [("rel_type", .vEnum t), ("child_part_num", .vStr c),
             ("parent_part_num", .vStr p)]) := by
  constructor
  · intro hs
    simp only [List.mem_cons, List.not_mem_nil, or_false, not_or] at hs
    obtain ⟨h1, h2, h3, h4, h5, h6⟩ := hs
    have hparse : parseRelType s = none := by
      rw [parseRelType]
      simp [h1, h2, h3, h4, h5, h6]
    simp [model_validate, beforeValidator, validateFields, getFieldValue,
      dlookup, rowToDict, rawToValue, fields, coerceField, hparse]
  · intro t ht
    subst ht
    cases t <;>
      simp [model_validate, beforeValidator, validateFields, getFieldValue,
        dlookup, rowToDict, rawToValue, fields, coerceField, parseRelType,
        PartType.code, hc, hp]

/-- Witness for C7: the unrecognized code `"X"` is rejected, and the
recognized code `"M"` maps to the `MOLD` member. -/
theorem claim7_witness :
    model_validate .PartRelationship
      (rowToDict
        [("rel_type", .rStr "X"), ("child_part_num", .rStr "3001"),
         ("parent_part_num", .rStr "3002")]) = .error "rel_type" ∧
    model_validate .PartRelationship
      (rowToDict
        [("rel_type", .rStr "M"), ("child_part_num", .rStr "3001"),
         ("parent_part_num", .rStr "3002")])
      = .ok
          [("rel_type", .vEnum .MOLD), ("child_part_num", .vStr "3001"),
           ("parent_part_num", .vStr "3002")] :=
  ⟨(claim7 "X" "3001" "3002" (by decide) (by decide)).1 (by decide),
   (claim7 "M" "3001" "3002" (by decide) (by decide)).2 .MOLD (by decide)⟩

/-! ## C8: `element_id` is always normalized to text -/

/-- C8.  Whenever an `Element` row validates successfully, its
`element_id` is a string — never a numeric value — and a numeric-looking
raw identifier is coerced to its canonical decimal string form by the
`convert_id` before-validator. -/
theorem claim8 (d : Dict) (rec : Record)
    (h : model_validate .Element d = .ok rec) :
    (∃ s, dlookup "element_id" rec = some (.vStr s)) ∧
    (∀ n : Int, dlookup "element_id" d = some (.vInt n) →
      dlookup "element_id" rec = some (.vStr (toString n))) := by
  cases hid : dlookup "element_id" d with
  | none =>
      rw [model_validate, beforeValidator, hid] at h
      cases h
  | some v₀ =>
      rw [model_validate, beforeValidator, hid] at h
      have hl : dlookup "element_id"
          (dictSet "element_id" (.vStr (pyStr v₀)) d)
          = some (.vStr (pyStr v₀)) := dlookup_dictSet_self _ _ _
      have hrec : dlookup "element_id" rec = some (.vStr (pyStr v₀)) := by
        simp only [fields] at h
        obtain ⟨v, r, hgv, hrest, hshape⟩ := validateFields_ok_cons h
        rw [getFieldValue, hl] at hgv
        by_cases hlen : (pyStr v₀).length ≤ 10
        · simp only [coerceField, hlen, if_true] at hgv
          cases hgv
          subst hshape
          simp [dlookup]
        · simp only [coerceField, hlen, if_false] at hgv
          cases hgv
      refine ⟨⟨pyStr v₀, hrec⟩, ?_⟩
      intro n hn
      cases hn
      exact hrec

/-- Witness for C8: the numeric raw identifier 601428 is stored as the
string `"601428"`. -/
theorem claim8_witness :
    (∃ s, dlookup "element_id"
      [("element_id", Value.vStr "601428"), ("part_num", Value.vStr "3001"),
       ("color_id", Value.vInt 0)] = some (.vStr s)) ∧
    (∀ n : Int,
      dlookup "element_id"
        (rowToDict
          [("element_id", Raw.rInt 601428), ("part_num", Raw.rStr "3001"),
           ("color_id", Raw.rInt 0)]) = some (.vInt n) →
      dlookup "element_id"
        [("element_id", Value.vStr "601428"), ("part_num", Value.vStr "3001"),
         ("color_id", Value.vInt 0)] = some (.vStr (toString n))) :=
  claim8
    (rowToDict
      [("element_id", Raw.rInt 601428), ("part_num", Raw.rStr "3001"),
       ("color_id", Raw.rInt 0)])
    [("element_id", Value.vStr "601428"), ("part_num", Value.vStr "3001"),
     ("color_id", Value.vInt 0)]
    rfl

/-! ## C9, C10: all-or-nothing materialization and row-for-row fidelity
of `download_instances` -/

/-- If any row of the parsed CSV fails validation, `validateRows`
produces an error, whatever the starting index. -/
lemma validateRows_error_of_mem (e : Entity) (row : RawRow) (f : String)
    (hfail : model_validate e (rowToDict row) = .error f) :
    ∀ (rows : List RawRow), row ∈ rows → ∀ i : Nat,
      ∃ err, validateRows e i rows = .error err := by
  intro rows
  induction rows with
  | nil => intro h; cases h
  | cons r rest ih =>
      intro hrow i
      cases h1 : model_validate e (rowToDict r) with
      | error g =>
          exact ⟨.validationError (entityName e) i g, by rw [validateRows, h1]⟩
      | ok rec =>
          have hr : row ∈ rest := by
            rcases List.mem_cons.mp hrow with h | h
            · subst h; rw [hfail] at h1; cases h1
            · exact h
          obtain ⟨err, herr⟩ := ih hr (i + 1)
          exact ⟨err, by rw [validateRows, h1, herr]⟩

/-- A successful `validateRows` yields exactly one record per data row,
in source order: the lengths agree and the `j`-th record is the validated
`j`-th row. -/
lemma validateRows_ok (e : Entity) :
    ∀ (rows : List RawRow) (i : Nat) (recs : List Record),
      validateRows e i rows = .ok recs →
      recs.length = rows.length ∧
      ∀ (j : Nat) (row : RawRow), rows.get? j = some row →
        ∃ rec, recs.get? j = some rec ∧
          model_validate e (rowToDict row) = .ok rec := by
  intro rows
  induction rows with
  | nil =>
      intro i recs h
      rw [validateRows] at h
      cases h
      exact ⟨rfl, by intro j row hj; cases hj⟩
  | cons r rest ih =>
      intro i recs h
      rw [validateRows] at h
      cases h1 : model_validate e (rowToDict r) with
      | error f => rw [h1] at h; cases h
      | ok rec0 =>
          rw [h1] at h
          cases h2 : validateRows e (i + 1) rest with
          | error err => rw [h2] at h; cases h
          | ok recs' =>
              rw [h2] at h
              cases h
              obtain ⟨hlen, hidx⟩ := ih (i + 1) recs' h2
              refine ⟨by simp [hlen], ?_⟩
              intro j row hj
              cases j with
              | zero => cases hj; exact ⟨rec0, rfl, h1⟩
              | succ j' => exact hidx j' row (by simpa using hj)

/-- A committed batch for another entity does not change a table's rows. -/
lemma commitEntity_rows_ne {db : DB} {e e' : Entity} {recs : List Record}
    {db' : DB} (h : commitEntity db e' recs = some db') (hne : e ≠ e') :
    db'.rows e = db.rows e := by
  rw [commitEntity] at h
  split at h
  · cases h; simp [hne]
  · cases h

/-- Committing a batch appends exactly that batch to the entity's table. -/
lemma commitEntity_rows_self {db : DB} {e : Entity} {recs : List Record}
    {db' : DB} (h : commitEntity db e recs = some db') :
    db'.rows e = db.rows e ++ recs := by
  rw [commitEntity] at h
  split at h
  · cases h; simp
  · cases h

/-- Commits never touch the set of created tables. -/
lemma commitEntity_tables {db : DB} {e : Entity} {recs : List Record}
    {db' : DB} (h : commitEntity db e recs = some db') :
    db'.tables = db.tables := by
  rw [commitEntity] at h
  split at h
  · cases h; rfl
  · cases h

/-- If downloading an entity fails, the whole loop leaves that entity's
table exactly as it started, wherever the entity sits in the order. -/
lemma loadLoop_rows_of_error (fetch : Entity → HttpResponse) (e : Entity)
    (err : Err) (h : download_instances e (fetch e) = .error err) :
    ∀ (es : List Entity) (db : DB),
      ((loadLoop fetch es db).1).rows e = db.rows e := by
  intro es
  induction es with
  | nil => intro db; rfl
  | cons e' rest ih =>
      intro db
      by_cases he : e' = e
      · subst he
        rw [loadLoop, h]
      · cases h1 : download_instances e' (fetch e') with
        | error err' => rw [loadLoop, h1]
        | ok recs =>
            cases h2 : commitEntity db e' recs with
            | none => simp only [loadLoop, h1, h2]
            | some db' =>
                have hpres : db'.rows e = db.rows e :=
                  commitEntity_rows_ne h2 (fun hh => he hh.symm)
                simp only [loadLoop, h1, h2]
                rw [ih db', hpres]

/-- C9.  `download_instances` materializes and validates the complete row
list before returning: if any row of the fetched CSV fails validation,
the call yields an error (no record list at all), and consequently
bootstrap leaves zero records of that entity in the destination — the
earlier valid rows included. -/
theorem claim9 (e : Entity) (rows : List RawRow) (i : Nat) (row : RawRow)
    (f : String) (fetch : Entity → HttpResponse)
    (hget : rows.get? i = some row)
    (hfail : model_validate e (rowToDict row) = .error f)
    (hfetch : fetch e = ⟨true, .gzipCsv rows⟩) :
    (∃ err, download_instances e (fetch e) = .error err) ∧
    (bootstrap fetch emptyDB).1.rows e = [] := by
  have hrow : row ∈ rows := List.get?_mem hget
  obtain ⟨err, herr⟩ := validateRows_error_of_mem e row f hfail rows hrow 0
  have hdl : download_instances e (fetch e) = .error err := by
    rw [hfetch]
    exact herr
  refine ⟨⟨err, hdl⟩, ?_⟩
  have hloop := loadLoop_rows_of_error fetch e err hdl ALL_MODELS
    (create_all emptyDB)
  simp only [bootstrap]
  rw [hloop]
  simp [create_all, emptyDB]

/-- The fetch environment of the C9 witness: `Color` serves one valid row
followed by a row whose non-nullable `name` is the NaN marker; every
other entity serves an empty CSV. -/
def claim9Fetch : Entity → HttpResponse := fun e =>
  match e with
  | .Color =>
      ⟨true, .gzipCsv
        [[("id", .rInt 1), ("name", .rStr "Black"),
          ("rgb", .rStr "05131D"), ("is_trans", .rBool false)],
         [("id", .rInt 2), ("name", .rNaN),
          ("rgb", .rStr "FFFFFF"), ("is_trans", .rBool true)]]⟩
  | _ => ⟨true, .gzipCsv []⟩

/-- Witness for C9: with one valid `Color` row before the invalid one,
the download errors and the destination holds no `Color` rows at all. -/
theorem claim9_witness :
    (∃ err, download_instances .Color (claim9Fetch .Color) = .error err) ∧
    (bootstrap claim9Fetch emptyDB).1.rows .Color = [] :=
  claim9 .Color
    [[("id", .rInt 1), ("name", .rStr "Black"),
      ("rgb", .rStr "05131D"), ("is_trans", .rBool false)],
     [("id", .rInt 2), ("name", .rNaN),
      ("rgb", .rStr "FFFFFF"), ("is_trans", .rBool true)]]
    1
    [("id", .rInt 2), ("name", .rNaN),
     ("rgb", .rStr "FFFFFF"), ("is_trans", .rBool true)]
    "name" claim9Fetch rfl rfl rfl

/-- C10.  For every successfully fetched and decoded source,
`download_instances` yields exactly one typed record per data row, in
source order: the record list has the same length as the row list and its
`j`-th element is the validated `j`-th row — nothing dropped, duplicated,
merged or reordered. -/
theorem claim10 (e : Entity) (rows : List RawRow) (recs : List Record)
    (h : download_instances e ⟨true, .gzipCsv rows⟩ = .ok recs) :
    recs.length = rows.length ∧
    ∀ (j : Nat) (row : RawRow), rows.get? j = some row →
      ∃ rec, recs.get? j = some rec ∧
        model_validate e (rowToDict row) = .ok rec :=
  validateRows_ok e rows 0 recs h

/-- Witness for C10: the spec's `Color` fixture of two rows loads as
exactly two records in order. -/
theorem claim10_witness :
    ([[("id", Value.vInt 1), ("name", Value.vStr "Black"),
       ("rgb", Value.vStr "05131D"), ("is_trans", Value.vBool false)],
      [("id", Value.vInt 9999), ("name", Value.vStr "Trans-Clear"),
       ("rgb", Value.vStr "FCFCFC"), ("is_trans", Value.vBool true)]].length
      = ([[("id", Raw.rInt 1), ("name", Raw.rStr "Black"),
           ("rgb", Raw.rStr "05131D"), ("is_trans", Raw.rBool false)],
          [("id", Raw.rInt 9999), ("name", Raw.rStr "Trans-Clear"),
           ("rgb", Raw.rStr "FCFCFC"), ("is_trans", Raw.rBool true)]] :
            List RawRow).length) ∧
    ∀ (j : Nat) (row : RawRow),
      ([[("id", Raw.rInt 1), ("name", Raw.rStr "Black"),
         ("rgb", Raw.rStr "05131D"), ("is_trans", Raw.rBool false)],
        [("id", Raw.rInt 9999), ("name", Raw.rStr "Trans-Clear"),
         ("rgb", Raw.rStr "FCFCFC"), ("is_trans", Raw.rBool true)]] :
          List RawRow).get? j = some row →
      ∃ rec,
        ([[("id", Value.vInt 1), ("name", Value.vStr "Black"),
           ("rgb", Value.vStr "05131D"), ("is_trans", Value.vBool false)],
          [("id", Value.vInt 9999), ("name", Value.vStr "Trans-Clear"),
           ("rgb", Value.vStr "FCFCFC"), ("is_trans", Value.vBool true)]] :
            List Record).get? j = some rec ∧
        model_validate .Color (rowToDict row) = .ok rec :=
  claim10 .Color
    [[("id", .rInt 1), ("name", .rStr "Black"),
      ("rgb", .rStr "05131D"), ("is_trans", .rBool false)],
     [("id", .rInt 9999), ("name", .rStr "Trans-Clear"),
      ("rgb", .rStr "FCFCFC"), ("is_trans", .rBool true)]]
    [[("id", .vInt 1), ("name", .vStr "Black"),
      ("rgb", .vStr "05131D"), ("is_trans", .vBool false)],
     [("id", .vInt 9999), ("name", .vStr "Trans-Clear"),
      ("rgb", .vStr "FCFCFC"), ("is_trans", .vBool true)]]
    rfl

/-! ## Loop unfolding lemmas for the bootstrap claims -/

/-- One successful iteration of the load loop: download ok and commit ok
prepend the entity's full event block and continue from the committed
state. -/
lemma loadLoop_cons_ok {fetch : Entity → HttpResponse} {e : Entity}
    {recs : List Record} {db db' : DB} (rest : List Entity)
    (h1 : download_instances e (fetch e) = .ok recs)
    (h2 : commitEntity db e recs = some db') :
    loadLoop fetch (e :: rest) db
      = ((loadLoop fetch rest db').1, (loadLoop fetch rest db').2.1,
         .fetchEv e :: .insertEv e :: .commitEv e
           :: (loadLoop fetch rest db').2.2) := by
  simp [loadLoop, h1, h2]

/-- A failed download aborts the loop with the database unchanged. -/
lemma loadLoop_cons_err {fetch : Entity → HttpResponse} {e : Entity}
    {db : DB} {err : Err} (rest : List Entity)
    (h : download_instances e (fetch e) = .error err) :
    loadLoop fetch (e :: rest) db = (db, some e, [.fetchEv e]) := by
  rw [loadLoop, h]

/-- A failed commit (primary-key conflict) aborts the loop after the
session rollback discards the uncommitted batch: the database is
unchanged. -/
lemma loadLoop_cons_commitfail {fetch : Entity → HttpResponse} {e : Entity}
    {recs : List Record} {db : DB} (rest : List Entity)
    (h1 : download_instances e (fetch e) = .ok recs)
    (h2 : commitEntity db e recs = none) :
    loadLoop fetch (e :: rest) db
      = (db, some e, [.fetchEv e, .insertEv e]) := by
  simp [loadLoop, h1, h2]

/-- The tail of the load order after its head `PartCategory`. -/
def REST_MODELS : List Entity :=
  [.Theme, .Part, .Color, .Set, .Element, .Minifig, .Inventory,
   .InventoryPart, .InventoryMinifig, .InventorySet, .PartRelationship]

lemma ALL_MODELS_eq : ALL_MODELS = Entity.PartCategory :: REST_MODELS := rfl

/-- A fresh-primary-key commit succeeds and its effect on the database is
exactly: same tables, the batch appended to the entity's own table,
every other table unchanged. -/
lemma commitEntity_some_of_fresh (db : DB) (e : Entity) (recs : List Record)
    (h : pkFresh (recs.map (pkValues e)) ((db.rows e).map (pkValues e))
          = true) :
    ∃ db', commitEntity db e recs = some db' ∧ db'.tables = db.tables ∧
      db'.rows e = db.rows e ++ recs ∧
      ∀ x, x ≠ e → db'.rows x = db.rows x := by
  refine ⟨{ db with
            rows := fun x => if x = e then db.rows e ++ recs
              else db.rows x },
    by rw [commitEntity, if_pos h], rfl, by simp, ?_⟩
  intro x hx
  simp [hx]

/-- The load loop never changes which tables exist. -/
lemma loadLoop_tables (fetch : Entity → HttpResponse) :
    ∀ (es : List Entity) (db : DB),
      (loadLoop fetch es db).1.tables = db.tables := by
  intro es
  induction es with
  | nil => intro db; rfl
  | cons e rest ih =>
      intro db
      cases h1 : download_instances e (fetch e) with
      | error err => rw [loadLoop, h1]
      | ok recs =>
          cases h2 : commitEntity db e recs with
          | none => simp only [loadLoop, h1, h2]
          | some db' =>
              simp only [loadLoop, h1, h2]
              rw [ih db', commitEntity_tables h2]

/-- An entity outside the remaining work list keeps its rows untouched by
the rest of the loop. -/
lemma loadLoop_rows_notmem (fetch : Entity → HttpResponse) (e : Entity) :
    ∀ (es : List Entity), e ∉ es → ∀ (db : DB),
      (loadLoop fetch es db).1.rows e = db.rows e := by
  intro es
  induction es with
  | nil => intro _ db; rfl
  | cons e' rest ih =>
      intro hmem db
      have hne : e ≠ e' := fun h => hmem (h ▸ List.mem_cons_self e' rest)
      have hrest : e ∉ rest := fun h => hmem (List.mem_cons_of_mem e' h)
      cases h1 : download_instances e' (fetch e') with
      | error err => rw [loadLoop, h1]
      | ok recs =>
          cases h2 : commitEntity db e' recs with
          | none => simp only [loadLoop, h1, h2]
          | some db' =>
              simp only [loadLoop, h1, h2]
              rw [ih hrest db', commitEntity_rows_ne h2 hne]

/-! ## C5: schema once, then one fetch–insert–commit block per entity in
load order -/

/-- The trace of the load loop is the concatenation of complete
fetch–insert–commit blocks for a prefix of the work list, followed either
by nothing or by the partial block of the single entity the run failed
on. -/
lemma loadLoop_trace_shape (fetch : Entity → HttpResponse) :
    ∀ (es : List Entity) (db : DB),
      ∃ (k : Nat) (tail : List Event),
        (loadLoop fetch es db).2.2
          = ((es.take k).map okBlock).flatten ++ tail ∧
        (tail = [] ∨ ∃ e, es.get? k = some e ∧
          (tail = [.fetchEv e] ∨ tail = [.fetchEv e, .insertEv e])) := by
  intro es
  induction es with
  | nil => intro db; exact ⟨0, [], rfl, Or.inl rfl⟩
  | cons e rest ih =>
      intro db
      cases h1 : download_instances e (fetch e) with
      | error err =>
          refine ⟨0, [.fetchEv e], ?_, Or.inr ⟨e, rfl, Or.inl rfl⟩⟩
          rw [loadLoop_cons_err rest h1]
          rfl
      | ok recs =>
          cases h2 : commitEntity db e recs with
          | none =>
              refine ⟨0, [.fetchEv e, .insertEv e], ?_,
                Or.inr ⟨e, rfl, Or.inr rfl⟩⟩
              simp [loadLoop, h1, h2]
          | some db' =>
              obtain ⟨k, tail, htr, htail⟩ := ih db'
              refine ⟨k + 1, tail, ?_, ?_⟩
              · rw [loadLoop_cons_ok rest h1 h2]
                simp only [List.take_succ_cons, List.map_cons,
                  List.flatten_cons, okBlock]
                rw [htr]
                simp [List.append_assoc]
              · rcases htail with h | ⟨e', hget, h⟩
                · exact Or.inl h
                · exact Or.inr ⟨e', by simpa using hget, h⟩

/-- C5.  The run's event trace is: the single schema creation first
(`createSchema` occurs exactly once, at the head, before any fetch or
insert), then complete fetch–insert–commit blocks for the first `k`
entities of the load order — so each entity's unit of work is committed
before the next entity's fetch begins, one commit per entity, commits in
load order — followed, if the run failed, by the partial block of the
single failing entity. -/
theorem claim5 (fetch : Entity → HttpResponse) (db : DB) :
    ∃ (k : Nat) (tail : List Event),
      (bootstrap fetch db).2.2
        = .createSchema
            :: (((ALL_MODELS.take k).map okBlock).flatten ++ tail) ∧
      (tail = [] ∨ ∃ e, ALL_MODELS.get? k = some e ∧
        (tail = [.fetchEv e] ∨ tail = [.fetchEv e, .insertEv e])) ∧
      Event.createSchema ∉ ((ALL_MODELS.take k).map okBlock).flatten ++ tail := by
  obtain ⟨k, tail, htr, htail⟩ :=
    loadLoop_trace_shape fetch ALL_MODELS (create_all db)
  refine ⟨k, tail, ?_, htail, ?_⟩
  · simp only [bootstrap]
    rw [htr]
  · intro hmem
    rcases List.mem_append.mp hmem with h | h
    · obtain ⟨l, hl, hin⟩ := List.mem_flatten.mp h
      obtain ⟨e, _, rfl⟩ := List.mem_map.mp hl
      simp [okBlock] at hin
    · rcases htail with rfl | ⟨e, _, htl⟩
      · cases h
      · rcases htl with rfl | rfl <;> simp_all

/-- Witness for C5 at a concrete environment: every entity serves an
empty CSV from a fresh destination. -/
theorem claim5_witness :
    ∃ (k : Nat) (tail : List Event),
      (bootstrap (fun _ => ⟨true, .gzipCsv []⟩) emptyDB).2.2
        = .createSchema
            :: (((ALL_MODELS.take k).map okBlock).flatten ++ tail) ∧
      (tail = [] ∨ ∃ e, ALL_MODELS.get? k = some e ∧
        (tail = [.fetchEv e] ∨ tail = [.fetchEv e, .insertEv e])) ∧
      Event.createSchema ∉ ((ALL_MODELS.take k).map okBlock).flatten ++ tail :=
  claim5 (fun _ => ⟨true, .gzipCsv []⟩) emptyDB

/-! ## C4: failure isolation -/

/-- C4.  If `PartCategory` and `Theme` download and commit successfully
but the `Part` fetch fails, the run reports failure for `Part`, the
destination keeps `PartCategory` and `Theme` fully present (exactly the
committed batches), and `Part` and every entity depending on it
(`Element`, `PartRelationship`, `InventoryPart`) hold no rows.  In
general (second conjunct), a download failure while processing an entity
aborts the run at that entity and leaves the database exactly as it was
— no partially committed rows. -/
theorem claim4 (fetch : Entity → HttpResponse) (r1 r2 : List Record)
    (err : Err)
    (h1 : download_instances .PartCategory (fetch .PartCategory) = .ok r1)
    (h2 : download_instances .Theme (fetch .Theme) = .ok r2)
    (hpk1 : pkFresh (r1.map (pkValues .PartCategory)) [] = true)
    (hpk2 : pkFresh (r2.map (pkValues .Theme)) [] = true)
    (h3 : download_instances .Part (fetch .Part) = .error err) :
    ((bootstrap fetch emptyDB).2.1 = some .Part ∧
     (bootstrap fetch emptyDB).1.rows .PartCategory = r1 ∧
     (bootstrap fetch emptyDB).1.rows .Theme = r2 ∧
     (bootstrap fetch emptyDB).1.rows .Part = [] ∧
     (bootstrap fetch emptyDB).1.rows .Element = [] ∧
     (bootstrap fetch emptyDB).1.rows .PartRelationship = [] ∧
     (bootstrap fetch emptyDB).1.rows .InventoryPart = []) ∧
    (∀ (db : DB) (e : Entity) (rest : List Entity) (err' : Err),
      download_instances e (fetch e) = .error err' →
      loadLoop fetch (e :: rest) db = (db, some e, [.fetchEv e])) := by
  have hr0 : ∀ x, (create_all emptyDB).rows x = [] := by
    intro x
    simp [create_all, emptyDB]
  obtain ⟨db₁, hc1, ht1, hs1, ho1⟩ :=
    commitEntity_some_of_fresh (create_all emptyDB) .PartCategory r1
      (by rw [hr0]; simpa using hpk1)
  obtain ⟨db₂, hc2, ht2, hs2, ho2⟩ :=
    commitEntity_some_of_fresh db₁ .Theme r2
      (by rw [ho1 .Theme (by decide), hr0]; simpa using hpk2)
  have hfst : (loadLoop fetch ALL_MODELS (create_all emptyDB)).1 = db₂ := by
    simp only [ALL_MODELS]
    rw [loadLoop_cons_ok _ h1 hc1, loadLoop_cons_ok _ h2 hc2,
      loadLoop_cons_err _ h3]
  have hsnd : (loadLoop fetch ALL_MODELS (create_all emptyDB)).2.1
      = some .Part := by
    simp only [ALL_MODELS]
    rw [loadLoop_cons_ok _ h1 hc1, loadLoop_cons_ok _ h2 hc2,
      loadLoop_cons_err _ h3]
  refine ⟨⟨?_, ?_, ?_, ?_, ?_, ?_, ?_⟩, ?_⟩
  · simp only [bootstrap]
    rw [hsnd]
  · simp only [bootstrap]
    rw [hfst, ho2 .PartCategory (by decide), hs1, hr0]
    rfl
  · simp only [bootstrap]
    rw [hfst, hs2, ho1 .Theme (by decide), hr0]
    rfl
  · simp only [bootstrap]
    rw [hfst, ho2 .Part (by decide), ho1 .Part (by decide), hr0]
  · simp only [bootstrap]
    rw [hfst, ho2 .Element (by decide), ho1 .Element (by decide), hr0]
  · simp only [bootstrap]
    rw [hfst, ho2 .PartRelationship (by decide),
      ho1 .PartRelationship (by decide), hr0]
  · simp only [bootstrap]
    rw [hfst, ho2 .InventoryPart (by decide),
      ho1 .InventoryPart (by decide), hr0]
  · intro db e rest err' hh
    exact loadLoop_cons_err rest hh

/-- The fetch environment of the C4 witness: one valid `PartCategory`
row, one valid `Theme` row with a null `parent_id`, an unreachable `Part`
source, and empty CSVs elsewhere. -/
def claim4Fetch : Entity → HttpResponse := fun e =>
  match e with
  | .PartCategory =>
      ⟨true, .gzipCsv [[("id", .rInt 1), ("name", .rStr "Bricks")]]⟩
  | .Theme =>
      ⟨true, .gzipCsv
        [[("id", .rInt 1), ("name", .rStr "Technic"), ("parent_id", .rNaN)]]⟩
  | .Part => ⟨false, .corrupt⟩
  | _ => ⟨true, .gzipCsv []⟩

/-- Witness for C4: the concrete failure-isolation scenario of the spec,
with `Part` unreachable. -/
theorem claim4_witness :
    ((bootstrap claim4Fetch emptyDB).2.1 = some .Part ∧
     (bootstrap claim4Fetch emptyDB).1.rows .PartCategory
       = [[("id", Value.vInt 1), ("name", Value.vStr "Bricks")]] ∧
     (bootstrap claim4Fetch emptyDB).1.rows .Theme
       = [[("id", Value.vInt 1), ("name", Value.vStr "Technic"),
           ("parent_id", Value.vNull)]] ∧
     (bootstrap claim4Fetch emptyDB).1.rows .Part = [] ∧
     (bootstrap claim4Fetch emptyDB).1.rows .Element = [] ∧
     (bootstrap claim4Fetch emptyDB).1.rows .PartRelationship = [] ∧
     (bootstrap claim4Fetch emptyDB).1.rows .InventoryPart = []) ∧
    (∀ (db : DB) (e : Entity) (rest : List Entity) (err' : Err),
      download_instances e (claim4Fetch e) = .error err' →
      loadLoop claim4Fetch (e :: rest) db = (db, some e, [.fetchEv e])) :=
  claim4 claim4Fetch
    [[("id", .vInt 1), ("name", .vStr "Bricks")]]
    [[("id", .vInt 1), ("name", .vStr "Technic"), ("parent_id", .vNull)]]
    .retrievalError rfl rfl (by decide) (by decide) rfl

/-! ## C6: re-running against the same destination -/

/-- The fetch environment of the C6 refutation: `PartCategory` serves one
row, everything else an empty CSV. -/
def claim6Fetch : Entity → HttpResponse := fun e =>
  match e with
  | .PartCategory =>
      ⟨true, .gzipCsv [[("id", .rInt 1), ("name", .rStr "Bricks")]]⟩
  | _ => ⟨true, .gzipCsv []⟩

/-- Counterexample to C6 as stated.  A first run from a fresh destination
succeeds, but re-invoking the same run against the resulting destination
does not: `create_all` keeps the populated tables, so re-inserting the
same `PartCategory` primary key fails that entity's unit of work instead
of rebuilding. -/
theorem claim6_counterexample :
    (bootstrap claim6Fetch emptyDB).2.1 = none ∧
    (bootstrap claim6Fetch ((bootstrap claim6Fetch emptyDB).1)).2.1
      = some Entity.PartCategory := by
  decide

/-- C6 as amended.  Re-running `bootstrap` against the same destination
is not idempotent: `SQLModel.metadata.create_all` only creates missing
tables and never drops existing rows, so whenever the first (successful)
run committed at least one `PartCategory` record, the second run fails on
`PartCategory` with a primary-key conflict and leaves the previously
committed `PartCategory` rows as they were, rather than rebuilding the
catalog from scratch. -/
theorem claim6 (fetch : Entity → HttpResponse) (recs : List Record)
    (h1 : download_instances .PartCategory (fetch .PartCategory) = .ok recs)
    (hne : recs ≠ [])
    (hok : (bootstrap fetch emptyDB).2.1 = none) :
    (bootstrap fetch ((bootstrap fetch emptyDB).1)).2.1
      = some .PartCategory ∧
    (bootstrap fetch ((bootstrap fetch emptyDB).1)).1.rows .PartCategory
      = (bootstrap fetch emptyDB).1.rows .PartCategory ∧
    (bootstrap fetch emptyDB).1.rows .PartCategory = recs := by
  cases hc : commitEntity (create_all emptyDB) .PartCategory recs with
  | none =>
      simp only [bootstrap, ALL_MODELS_eq] at hok
      rw [loadLoop_cons_commitfail REST_MODELS h1 hc] at hok
      cases hok
  | some db₁ =>
      have hstepA : (loadLoop fetch ALL_MODELS (create_all emptyDB)).1
          = (loadLoop fetch REST_MODELS db₁).1 := by
        rw [ALL_MODELS_eq, loadLoop_cons_ok REST_MODELS h1 hc]
      have hD_rows : (bootstrap fetch emptyDB).1.rows .PartCategory
          = recs := by
        simp only [bootstrap]
        rw [hstepA,
          loadLoop_rows_notmem fetch .PartCategory REST_MODELS (by decide)
            db₁,
          commitEntity_rows_self hc]
        simp [create_all, emptyDB]
      have hD_tables : (bootstrap fetch emptyDB).1.tables = ALL_MODELS := by
        simp only [bootstrap]
        rw [hstepA, loadLoop_tables, commitEntity_tables hc]
        rfl
      obtain ⟨D, hD⟩ : ∃ D, (bootstrap fetch emptyDB).1 = D := ⟨_, rfl⟩
      rw [hD] at hD_rows hD_tables ⊢
      have hca : (create_all D).rows .PartCategory = recs := by
        simp only [create_all]
        rw [hD_tables]
        rw [if_pos (by decide : Entity.PartCategory ∈ ALL_MODELS)]
        exact hD_rows
      have hfresh : pkFresh (recs.map (pkValues .PartCategory))
          (((create_all D).rows .PartCategory).map (pkValues .PartCategory))
          = false := by
        rw [hca]
        obtain ⟨r, rs, hrr⟩ := List.exists_cons_of_ne_nil hne
        subst hrr
        simp [pkFresh, pkvMem]
      have hcommit2 : commitEntity (create_all D) .PartCategory recs
          = none := by
        rw [commitEntity]
        simp [hfresh]
      refine ⟨?_, ?_, hD_rows⟩
      · simp only [bootstrap, ALL_MODELS_eq]
        rw [loadLoop_cons_commitfail REST_MODELS h1 hcommit2]
      · simp only [bootstrap, ALL_MODELS_eq]
        rw [loadLoop_cons_commitfail REST_MODELS h1 hcommit2]
        exact hca.trans hD_rows.symm

/-- Witness for the amended C6, at the concrete environment of the
counterexample. -/
theorem claim6_witness :
    (bootstrap claim6Fetch ((bootstrap claim6Fetch emptyDB).1)).2.1
      = some .PartCategory ∧
    (bootstrap claim6Fetch
        ((bootstrap claim6Fetch emptyDB).1)).1.rows .PartCategory
      = (bootstrap claim6Fetch emptyDB).1.rows .PartCategory ∧
    (bootstrap claim6Fetch emptyDB).1.rows .PartCategory
      = [[("id", Value.vInt 1), ("name", Value.vStr "Bricks")]] :=
  claim6 claim6Fetch [[("id", .vInt 1), ("name", .vStr "Bricks")]]
    rfl (by decide) (by decide)

end BrickOrm
